import Mathlib

/-!
Shallow embedding of the fetched-state synchronization engine of
`python-threatexchange/threatexchange/exchanges/helpers.py`:
the per-collaboration `_StateTracker`, the in-memory
`SimpleFetchedStateStore` and the persistent `DBMFetchedStateStore`.

Python dictionaries are embedded as insertion-ordered association lists
(`List (String × α)`) with `dictSet` giving the dict-assignment semantics
(overwrite in place, else append).  Checkpoints, record ids and record
values are opaque to the engine, which only compares checkpoints for
equality; they are embedded as `Nat` / `String`.  The externally supplied
exchange API (`api_cls`) is embedded as a structure of its two functions
used here, `naive_fetch_merge` and `naive_convert_to_signal_type`;
Python's in-place mutation of the existing map becomes returning the
combined map.  Fallible accesses (Python `assert`) are embedded with
`Except Unit`.
-/

namespace ThreatExchange

/-- Checkpoints are opaque, compared only for equality. -/
abbrev Checkpoint := Nat

/-- The engine uses a collaboration only through its `name`. -/
abbrev Collab := String

abbrev RecordId := String

/-- Update records are opaque to the engine. -/
abbrev RecordVal := Nat

/-- Signal types are used only as dictionary keys here. -/
abbrev SigType := String

/-- A Python dict embedded as an insertion-ordered association list. -/
abbrev Dict (α : Type) := List (String × α)

/-- Membership test of a key, as in Python `k in d`. -/
def lookupKV {α : Type} : Dict α → String → Option α
  | [], _ => none
  | p :: rest, k => if p.1 = k then some p.2 else lookupKV rest k

/-- Python dict assignment `d[k] = v`: overwrite in place, else append. -/
def dictSet {α : Type} (d : Dict α) (k : String) (v : α) : Dict α :=
  match d with
  | [] => [(k, v)]
  | p :: rest => if p.1 = k then (k, v) :: rest else p :: dictSet rest k v

/-- The update map of a fetch delta: record id to record. -/
abbrev UpdateMap := Dict RecordVal

/-- The projection of one collaboration for one signal type. -/
abbrev ConvMap := Dict RecordVal

/-- `FetchDeltaTyped`: a batch of updates plus the checkpoint reached after
applying it.  The code compares `delta.checkpoint` with `None`, so the
checkpoint field is embedded as `Option Checkpoint`. -/
structure FetchDelta where
  updates : UpdateMap
  checkpoint : Option Checkpoint
deriving DecidableEq, Repr

/-- The externally supplied exchange API (`api_cls`), restricted to the
two class methods the state stores call. -/
structure APICls where
  naive_fetch_merge : UpdateMap → UpdateMap → UpdateMap
  naive_convert_to_signal_type :
    List SigType → Collab → UpdateMap → Dict ConvMap

/-- `_StateTracker`: per-collaboration in-memory accumulator.
The `api_cls` field is passed explicitly to `setDelta` instead of being
stored, since it never changes. -/
structure StateTracker where
  _delta : Option FetchDelta
  dirty : Bool := false
deriving DecidableEq, Repr

namespace StateTracker

/-- `empty` property: true iff no state has ever been merged. -/
def empty (t : StateTracker) : Bool := t._delta.isNone

/-- `delta` property getter; `assert self._delta is not None` becomes
`Except.error` on an empty tracker. -/
def deltaAccess (t : StateTracker) : Except Unit FetchDelta :=
  match t._delta with
  | none => .error ()
  | some d => .ok d

/-- `delta` property setter: adopt the delta if no state exists, else merge
the update maps by `naive_fetch_merge`; either way take the new checkpoint
and set the dirty flag.  (In the source, when `_delta is None`, `old` is a
fresh `{}` merged with `value.updates` and stored back into `value`.) -/
def setDelta (api : APICls) (t : StateTracker) (value : FetchDelta) : StateTracker :=
  match t._delta with
  | none =>
    { _delta := some { updates := api.naive_fetch_merge [] value.updates,
                       checkpoint := value.checkpoint },
      dirty := true }
  | some d =>
    { _delta := some { updates := api.naive_fetch_merge d.updates value.updates,
                       checkpoint := value.checkpoint },
      dirty := true }

/-- `checkpoint` property: `None if self._delta is None else
self._delta.checkpoint`.  It has no assert and never fails. -/
def checkpoint (t : StateTracker) : Option Checkpoint :=
  match t._delta with
  | none => none
  | some d => d.checkpoint

/-- The `checkpoint` property wrapped in the same fallibility type as
`deltaAccess`, to compare their failure behaviour: its body raises
nothing, so it is always `.ok`. -/
def checkpointAccess (t : StateTracker) : Except Unit (Option Checkpoint) :=
  .ok t.checkpoint

end StateTracker

/-- `SimpleFetchedStateStore`: merges in memory, keyed by collab name.
The abstract hooks `_read_state` / `_write_state` are a polymorphism
point: reading is a parameter `read` of the operations, and writing is
returned as the list of `(collab_name, delta)` snapshot-write calls the
operation performs. -/
structure SimpleStore where
  _state : Dict StateTracker
deriving DecidableEq, Repr

/-- The hook `_read_state`, supplied by a subclass. -/
abbrev ReadHook := String → Option FetchDelta

namespace SimpleStore

/-- The store of a freshly constructed `SimpleFetchedStateStore`. -/
def init : SimpleStore := { _state := [] }

/-- `_get_state`: lazily create the tracker from `_read_state`.  Returns
the (possibly grown) store together with the tracker. -/
def getState (read : ReadHook) (s : SimpleStore) (c : Collab) :
    SimpleStore × StateTracker :=
  match lookupKV s._state c with
  | some t => (s, t)
  | none =>
    let t : StateTracker := { _delta := read c, dirty := false }
    ({ _state := s._state ++ [(c, t)] }, t)

/-- `get_checkpoint`: checkpoint of the (lazily loaded) tracker. -/
def get_checkpoint (read : ReadHook) (s : SimpleStore) (c : Collab) :
    SimpleStore × Option Checkpoint :=
  ((getState read s c).1, (getState read s c).2.checkpoint)

/-- `clear`: `self._state.pop(collab.name, None)`.  Performs no durable
write (the second component is the snapshot-write list). -/
def clear (s : SimpleStore) (c : Collab) :
    SimpleStore × List (String × FetchDelta) :=
  ({ _state := s._state.filter (fun p => p.1 ≠ c) }, [])

/-- Replace the tracker stored under `c` (Python mutates the tracker
object held in the dict). -/
def setTracker (s : SimpleStore) (c : Collab) (t : StateTracker) : SimpleStore :=
  { _state := s._state.map (fun p => if p.1 = c then (c, t) else p) }

/-- `merge`: no-op short-circuit when the update map is empty and the
checkpoint is `None` or the tracker's current checkpoint; otherwise fold
the delta into the tracker.  No snapshot write happens here. -/
def merge (api : APICls) (read : ReadHook) (s : SimpleStore) (c : Collab)
    (d : FetchDelta) : SimpleStore × List (String × FetchDelta) :=
  let s1 := (getState read s c).1
  let t := (getState read s c).2
  if d.updates.length = 0 ∧ (d.checkpoint = none ∨ d.checkpoint = t.checkpoint) then
    (s1, [])
  else
    (setTracker s1 c (t.setDelta api d), [])

/-- One pass of `flush` over the items of `self._state`: write and clean
every dirty tracker; `assert state.delta is not None` becomes an error. -/
def flushList : Dict StateTracker →
    Except Unit (Dict StateTracker × List (String × FetchDelta))
  | [] => .ok ([], [])
  | (n, t) :: rest =>
    if t.dirty then
      match t._delta with
      | none => .error ()
      | some d =>
        match flushList rest with
        | .error e => .error e
        | .ok (rs, ws) => .ok ((n, { t with dirty := false }) :: rs, (n, d) :: ws)
    else
      match flushList rest with
      | .error e => .error e
      | .ok (rs, ws) => .ok ((n, t) :: rs, ws)

/-- `flush`: iterates every tracked collaboration; the `collab` argument
is unused by the source. -/
def flush (s : SimpleStore) (_c : Collab) :
    Except Unit (SimpleStore × List (String × FetchDelta)) :=
  match flushList s._state with
  | .error e => .error e
  | .ok (st, ws) => .ok ({ _state := st }, ws)

/-- Loop body of `get_for_signal_type`, threading the store and the `ret`
dict through the iteration over `collabs`. -/
def getForSigAux (api : APICls) (read : ReadHook) :
    SimpleStore → Dict ConvMap → List Collab → SigType →
    SimpleStore × Dict ConvMap
  | s, ret, [], _ => (s, ret)
  | s, ret, c :: rest, sig =>
    let s1 := (getState read s c).1
    match (getState read s c).2._delta with
    | none => getForSigAux api read s1 ret rest sig
    | some d =>
      let bySignal :=
        (lookupKV (api.naive_convert_to_signal_type [sig] c d.updates) sig).getD []
      if bySignal = [] then getForSigAux api read s1 ret rest sig
      else getForSigAux api read s1 (dictSet ret c bySignal) rest sig

/-- `get_for_signal_type`: for each requested collaboration with a
non-empty tracker, convert its update map and keep the projection when it
is non-empty. -/
def get_for_signal_type (api : APICls) (read : ReadHook) (s : SimpleStore)
    (collabs : List Collab) (sig : SigType) : SimpleStore × Dict ConvMap :=
  getForSigAux api read s [] collabs sig

/-- The no-op condition of the in-memory `merge`, phrased against the
lazily loaded tracker, for reuse in statements. -/
def noopCond (read : ReadHook) (s : SimpleStore) (c : Collab)
    (d : FetchDelta) : Prop :=
  d.updates.length = 0 ∧
    (d.checkpoint = none ∨ d.checkpoint = (getState read s c).2.checkpoint)

instance (read : ReadHook) (s : SimpleStore) (c : Collab) (d : FetchDelta) :
    Decidable (noopCond read s c d) := by
  unfold noopCond
  infer_instance

/-- The tracker dictionary after one `flush` pass: every dirty flag
cleared. -/
def flushedTrackers (l : Dict StateTracker) : Dict StateTracker :=
  l.map (fun p => (p.1, { p.2 with dirty := false }))

/-- The `_write_state` calls one `flush` pass performs: one per dirty
tracker, in iteration order. -/
def dirtyWrites : Dict StateTracker → List (String × FetchDelta)
  | [] => []
  | (n, t) :: rest =>
    match t.dirty, t._delta with
    | true, some d => (n, d) :: dirtyWrites rest
    | true, none => dirtyWrites rest
    | false, _ => dirtyWrites rest

/-- The accumulated update map and checkpoint visible for `c`, or none
when no tracker with merged state is present. -/
def simpleView (s : SimpleStore) (c : Collab) :
    Option (UpdateMap × Option Checkpoint) :=
  match lookupKV s._state c with
  | none => none
  | some t =>
    match t._delta with
    | none => none
    | some d => some (d.updates, d.checkpoint)

/-- Fold a list of deltas into the store by repeated `merge`. -/
def mergeAll (api : APICls) (read : ReadHook) (c : Collab) :
    SimpleStore → List FetchDelta → SimpleStore
  | s, [] => s
  | s, d :: rest => mergeAll api read c (merge api read s c d).1 rest

end SimpleStore

/-- Success test for a fallible operation. -/
def isOkE {α : Type} : Except Unit α → Bool
  | .ok _ => true
  | .error _ => false

/-- Modelled from the spec: the checkpoint namespace `name + "_checkpoint"`
of the key-value store holds two keys — `checkpoint` (committed) and
`_checkpoint` (staged).  The `threatexchange.exchanges.storage` module
itself is not part of the shown source. -/
structure CheckpointNS where
  committed : Option Checkpoint := none
  staged : Option Checkpoint := none
deriving DecidableEq, Repr

/-- Modelled from the spec: the state of the `DBMStorage` key-value store
abstraction (`connect(namespace)` exposing `get`/`set`/iteration/
`exists`/`drop`), which is not part of the shown source.  Per
collaboration `name`, a data namespace `name` holds `{record_id: record}`
and the namespace `name + "_checkpoint"` holds the two checkpoint keys.
A namespace absent from the dict has never been written. -/
structure DBMState where
  data : Dict UpdateMap := []
  cp : Dict CheckpointNS := []
deriving DecidableEq, Repr

/-- One durable write performed by the persistent store: a record write in
a data namespace, a checkpoint-namespace key write, or a namespace drop. -/
inductive DBMWrite where
  | setData (ns : String) (k : RecordId) (v : RecordVal)
  | setStaged (ns : String) (c : Option Checkpoint)
  | setCommitted (ns : String) (c : Option Checkpoint)
  | dropData (ns : String)
deriving DecidableEq, Repr

namespace DBMState

/-- Contents of a data namespace; empty when never written. -/
def getData (db : DBMState) (ns : String) : UpdateMap :=
  (lookupKV db.data ns).getD []

/-- Contents of a checkpoint namespace; both keys unset when never written. -/
def getCp (db : DBMState) (ns : String) : CheckpointNS :=
  (lookupKV db.cp ns).getD {}

/-- `db.set(k, v)` on the data namespace `ns`. -/
def setData (db : DBMState) (ns : String) (k : RecordId) (v : RecordVal) :
    DBMState :=
  { db with data := dictSet db.data ns (dictSet (db.getData ns) k v) }

/-- `db_cp.set('_checkpoint', c)` on the checkpoint namespace `ns`. -/
def setStaged (db : DBMState) (ns : String) (c : Option Checkpoint) : DBMState :=
  { db with cp := dictSet db.cp ns { db.getCp ns with staged := c } }

/-- `db_cp.set('checkpoint', c)` on the checkpoint namespace `ns`. -/
def setCommitted (db : DBMState) (ns : String) (c : Option Checkpoint) : DBMState :=
  { db with cp := dictSet db.cp ns { db.getCp ns with committed := c } }

/-- `db.drop()` on the data namespace `ns`. -/
def dropData (db : DBMState) (ns : String) : DBMState :=
  { db with data := db.data.filter (fun p => p.1 ≠ ns) }

end DBMState

/-- The name of the checkpoint namespace of collaboration `c`. -/
def cpNS (c : Collab) : String := c ++ "_checkpoint"

/-
`DBMFetchedStateStore`: persistent strategy.  Its only state is the
key-value store; every operation returns the new `DBMState` together with
the durable writes it performed.
-/
namespace DBMStore

/-- `get_checkpoint`: reads only the committed key. -/
def get_checkpoint (db : DBMState) (c : Collab) : Option Checkpoint :=
  (db.getCp (cpNS c)).committed

/-- `merge`: no-op short-circuit against the committed checkpoint;
otherwise write every updated record into the data namespace and
overwrite the staged key, not the committed one. -/
def merge (db : DBMState) (c : Collab) (d : FetchDelta) :
    DBMState × List DBMWrite :=
  if d.updates.length = 0 ∧
      (d.checkpoint = none ∨ d.checkpoint = (db.getCp (cpNS c)).committed) then
    (db, [])
  else
    let db1 := d.updates.foldl (fun acc kv => acc.setData c kv.1 kv.2) db
    (db1.setStaged (cpNS c) d.checkpoint,
      d.updates.map (fun kv => DBMWrite.setData c kv.1 kv.2)
        ++ [DBMWrite.setStaged (cpNS c) d.checkpoint])

/-- The no-op condition of the persistent `merge`, for reuse in
statements. -/
def noopCond (db : DBMState) (c : Collab) (d : FetchDelta) : Prop :=
  d.updates.length = 0 ∧
    (d.checkpoint = none ∨ d.checkpoint = (db.getCp (cpNS c)).committed)

instance (db : DBMState) (c : Collab) (d : FetchDelta) :
    Decidable (noopCond db c d) := by
  unfold noopCond
  infer_instance

/-- `flush`: copy the staged checkpoint into the committed key. -/
def flush (db : DBMState) (c : Collab) : DBMState × List DBMWrite :=
  let staged := (db.getCp (cpNS c)).staged
  (db.setCommitted (cpNS c) staged, [DBMWrite.setCommitted (cpNS c) staged])

/-- `clear`: drop the data namespace; the checkpoint namespace survives. -/
def clear (db : DBMState) (c : Collab) : DBMState × List DBMWrite :=
  (db.dropData c, [DBMWrite.dropData c])

/-- `exists`: whether the data namespace has ever been written. -/
def existsData (db : DBMState) (c : Collab) : Bool :=
  (lookupKV db.data c).isSome

/-- Loop body of `get_for_signal_type`, threading the `ret` dict. -/
def getForSigAux (api : APICls) (db : DBMState) :
    Dict ConvMap → List Collab → SigType → Dict ConvMap
  | ret, [], _ => ret
  | ret, c :: rest, sig =>
    let bySignal :=
      (lookupKV (api.naive_convert_to_signal_type [sig] c (db.getData c)) sig).getD []
    if bySignal = [] then getForSigAux api db ret rest sig
    else getForSigAux api db (dictSet ret c bySignal) rest sig

/-- `get_for_signal_type`: read each collaboration's whole data namespace,
convert, and keep non-empty projections. -/
def get_for_signal_type (api : APICls) (db : DBMState) (collabs : List Collab)
    (sig : SigType) : Dict ConvMap :=
  getForSigAux api db [] collabs sig

end DBMStore

/-!
Concrete instances used by counterexamples and witnesses, and runners for
whole operation sequences.
-/

/-- Python dict-update semantics for a merge function: every key of the
new batch overwrites the existing entry. -/
def dictUpdate (old new : UpdateMap) : UpdateMap :=
  new.foldl (fun m kv => dictSet m kv.1 kv.2) old

/-- A merge-by-addition merge function: the new value is added to the
existing one (missing treated as `0`). -/
def addMerge (old new : UpdateMap) : UpdateMap :=
  new.foldl (fun m kv => dictSet m kv.1 ((lookupKV m kv.1).getD 0 + kv.2)) old

/-- A converter that projects the raw update map unchanged for each
requested signal type. -/
def rawConv : List SigType → Collab → UpdateMap → Dict ConvMap :=
  fun sigs _ m => sigs.map (fun s => (s, m))

/-- An exchange API with dict-update merge and a given converter. -/
def overwriteAPIWith
    (conv : List SigType → Collab → UpdateMap → Dict ConvMap) : APICls :=
  { naive_fetch_merge := dictUpdate, naive_convert_to_signal_type := conv }

/-- An exchange API whose merge function overwrites per key. -/
def overwriteAPI : APICls := overwriteAPIWith rawConv

/-- An exchange API whose merge function accumulates by addition. -/
def addAPI : APICls :=
  { naive_fetch_merge := addMerge, naive_convert_to_signal_type := rawConv }

/-- A `_read_state` hook with no prior persisted snapshot. -/
def noRead : ReadHook := fun _ => none

/-- A `_read_state` hook over a durable backing that holds a snapshot
with one record and checkpoint 5 for every collaboration. -/
def someRead : ReadHook :=
  fun _ => some { updates := [("a", 1)], checkpoint := some 5 }

/-- One call of the shared store interface on a fixed collaboration. -/
inductive StoreOp where
  | mergeOp (d : FetchDelta)
  | flushOp
deriving DecidableEq, Repr

/-- True unless the operation is a merge of a delta with an empty update
map (which could trigger the no-op short-circuit). -/
def StoreOp.okMerge : StoreOp → Bool
  | .mergeOp d => !d.updates.isEmpty
  | .flushOp => true

/-- Run a sequence of `merge`/`flush` calls on collaboration `c` against
the in-memory store; a failed flush assertion aborts the run. -/
def runSimple (api : APICls) (read : ReadHook) (c : Collab) :
    SimpleStore → List StoreOp → Except Unit SimpleStore
  | s, [] => .ok s
  | s, .mergeOp d :: rest => runSimple api read c (SimpleStore.merge api read s c d).1 rest
  | s, .flushOp :: rest =>
    match SimpleStore.flush s c with
    | .error e => .error e
    | .ok (s1, _) => runSimple api read c s1 rest

/-- Run the same sequence against the persistent store. -/
def runDBM (c : Collab) : DBMState → List StoreOp → DBMState
  | db, [] => db
  | db, .mergeOp d :: rest => runDBM c (DBMStore.merge db c d).1 rest
  | db, .flushOp :: rest => runDBM c (DBMStore.flush db c).1 rest

/-- Projection observed through the in-memory store after a run from a
fresh store. -/
def projSimpleRun (api : APICls) (read : ReadHook) (c : Collab)
    (ops : List StoreOp) (sig : SigType) : Except Unit (Dict ConvMap) :=
  match runSimple api read c SimpleStore.init ops with
  | .error e => .error e
  | .ok s => .ok (SimpleStore.get_for_signal_type api read s [c] sig).2

/-- Checkpoint observed through the in-memory store after a run from a
fresh store. -/
def cpSimpleRun (api : APICls) (read : ReadHook) (c : Collab)
    (ops : List StoreOp) : Except Unit (Option Checkpoint) :=
  match runSimple api read c SimpleStore.init ops with
  | .error e => .error e
  | .ok s => .ok (SimpleStore.get_checkpoint read s c).2

/-- Projection observed through the persistent store after a run from an
empty key-value store. -/
def projDBMRun (api : APICls) (c : Collab) (ops : List StoreOp)
    (sig : SigType) : Dict ConvMap :=
  DBMStore.get_for_signal_type api (runDBM c {} ops) [c] sig

/-- Checkpoint observed through the persistent store after a run from an
empty key-value store. -/
def cpDBMRun (c : Collab) (ops : List StoreOp) : Option Checkpoint :=
  DBMStore.get_checkpoint (runDBM c {} ops) c

/-- Stores reachable from a fresh `SimpleFetchedStateStore` by any
sequence of its public operations (with any api, read hook and
arguments). -/
inductive Reachable : SimpleStore → Prop where
  | init : Reachable SimpleStore.init
  | mergeStep (api : APICls) (read : ReadHook) (s : SimpleStore) (c : Collab)
      (d : FetchDelta) : Reachable s → Reachable (SimpleStore.merge api read s c d).1
  | flushStep (s : SimpleStore) (c : Collab) (s1 : SimpleStore)
      (ws : List (String × FetchDelta)) : Reachable s →
      SimpleStore.flush s c = .ok (s1, ws) → Reachable s1
  | clearStep (s : SimpleStore) (c : Collab) : Reachable s →
      Reachable (SimpleStore.clear s c).1
  | getCpStep (read : ReadHook) (s : SimpleStore) (c : Collab) : Reachable s →
      Reachable (SimpleStore.get_checkpoint read s c).1
  | getForSigStep (api : APICls) (read : ReadHook) (s : SimpleStore)
      (collabs : List Collab) (sig : SigType) : Reachable s →
      Reachable (SimpleStore.get_for_signal_type api read s collabs sig).1

/-- The dirty-implies-loaded invariant of the tracker dictionary. -/
def SimpleStore.wf (s : SimpleStore) : Prop :=
  ∀ p ∈ s._state, p.2.dirty = true → p.2._delta.isSome

/-- The effective accumulated update map for `c`: empty when no merged
state is present. -/
def viewData (s : SimpleStore) (c : Collab) : UpdateMap :=
  match SimpleStore.simpleView s c with
  | none => []
  | some (m, _) => m

/-- The effective accumulated checkpoint for `c`: none when no merged
state is present. -/
def viewCp (s : SimpleStore) (c : Collab) : Option Checkpoint :=
  match SimpleStore.simpleView s c with
  | none => none
  | some (_, cp) => cp

/-- Simulation relation between the in-memory store and the persistent
store on a single collaboration `c`, for runs that started from fresh
stores: the tracker dictionary is well-formed and mentions only `c`, the
data namespace agrees with the accumulated update map, and the staged
checkpoint agrees with the accumulated checkpoint. -/
def equivInv (c : Collab) (s : SimpleStore) (db : DBMState) : Prop :=
  SimpleStore.wf s ∧
  (∀ p ∈ s._state, p.1 = c) ∧
  db.getData c = viewData s c ∧
  (db.getCp (cpNS c)).staged = viewCp s c

/-!
Theorems.  First the association-list laws, then per-component lemmas,
then one theorem per specification claim.
-/

@[simp]
theorem lookupKV_nil {α : Type} (k : String) : lookupKV ([] : Dict α) k = none := rfl

@[simp]
theorem lookupKV_cons {α : Type} (p : String × α) (rest : Dict α) (k : String) :
    lookupKV (p :: rest) k = if p.1 = k then some p.2 else lookupKV rest k := rfl

theorem lookupKV_dictSet_self {α : Type} (d : Dict α) (k : String) (v : α) :
    lookupKV (dictSet d k v) k = some v := by
  induction d with
  | nil => simp [dictSet]
  | cons p rest ih =>
    by_cases h : p.1 = k <;> simp [dictSet, h, ih]

theorem lookupKV_dictSet_ne {α : Type} (d : Dict α) (k k' : String) (v : α)
    (h : k' ≠ k) : lookupKV (dictSet d k v) k' = lookupKV d k' := by
  induction d with
  | nil => simp [dictSet, Ne.symm h]
  | cons p rest ih =>
    by_cases hp : p.1 = k
    · subst hp
      simp [dictSet, Ne.symm h]
    · simp only [dictSet, if_neg hp, lookupKV_cons]
      by_cases hp' : p.1 = k' <;> simp [hp', ih]

theorem lookupKV_filter_ne_self {α : Type} (d : Dict α) (k : String) :
    lookupKV (d.filter (fun p => p.1 ≠ k)) k = none := by
  simp only [ne_eq, decide_not]
  induction d with
  | nil => rfl
  | cons p rest ih =>
    rw [List.filter_cons]
    by_cases hp : p.1 = k
    · rw [if_neg (by simp [hp])]
      exact ih
    · rw [if_pos (by simp [hp])]
      simpa [hp] using ih

theorem lookupKV_filter_ne_other {α : Type} (d : Dict α) (k k' : String)
    (h : k' ≠ k) : lookupKV (d.filter (fun p => p.1 ≠ k)) k' = lookupKV d k' := by
  simp only [ne_eq, decide_not]
  induction d with
  | nil => rfl
  | cons p rest ih =>
    rw [List.filter_cons]
    by_cases hp : p.1 = k
    · rw [if_neg (by simp [hp]), ih, lookupKV_cons, if_neg]
      rw [hp]
      exact fun hh => h hh.symm
    · rw [if_pos (by simp [hp]), lookupKV_cons, lookupKV_cons, ih]

/-! Laws of the modelled key-value store. -/

theorem getCp_setData (db : DBMState) (ns : String) (k : RecordId)
    (v : RecordVal) (ns' : String) :
    (db.setData ns k v).getCp ns' = db.getCp ns' := rfl

theorem getCp_foldl_setData (l : UpdateMap) (db : DBMState) (ns ns' : String) :
    ((l.foldl (fun acc kv => acc.setData ns kv.1 kv.2) db).getCp ns') =
      db.getCp ns' := by
  induction l generalizing db with
  | nil => rfl
  | cons kv rest ih => simpa using ih (db.setData ns kv.1 kv.2)

theorem getCp_setStaged_self (db : DBMState) (ns : String) (c : Option Checkpoint) :
    (db.setStaged ns c).getCp ns = { db.getCp ns with staged := c } := by
  simp [DBMState.setStaged, DBMState.getCp, lookupKV_dictSet_self]

theorem getCp_setCommitted_self (db : DBMState) (ns : String)
    (c : Option Checkpoint) :
    (db.setCommitted ns c).getCp ns = { db.getCp ns with committed := c } := by
  simp [DBMState.setCommitted, DBMState.getCp, lookupKV_dictSet_self]

theorem getCp_dropData (db : DBMState) (ns ns' : String) :
    (db.dropData ns).getCp ns' = db.getCp ns' := rfl

theorem getData_setStaged (db : DBMState) (ns : String) (c : Option Checkpoint)
    (ns' : String) : (db.setStaged ns c).getData ns' = db.getData ns' := rfl

theorem getData_setCommitted (db : DBMState) (ns : String) (c : Option Checkpoint)
    (ns' : String) : (db.setCommitted ns c).getData ns' = db.getData ns' := rfl

theorem getData_setData_self (db : DBMState) (ns : String) (k : RecordId)
    (v : RecordVal) : (db.setData ns k v).getData ns = dictSet (db.getData ns) k v := by
  simp [DBMState.setData, DBMState.getData, lookupKV_dictSet_self]

theorem getData_dropData_self (db : DBMState) (ns : String) :
    (db.dropData ns).getData ns = [] := by
  simp only [DBMState.dropData, DBMState.getData]
  rw [lookupKV_filter_ne_self]
  rfl

theorem dbm_merge_noop (db : DBMState) (c : Collab) (d : FetchDelta)
    (h : DBMStore.noopCond db c d) : DBMStore.merge db c d = (db, []) := by
  unfold DBMStore.noopCond at h
  simp only [DBMStore.merge]
  rw [if_pos h]

theorem dbm_merge_not_noop (db : DBMState) (c : Collab) (d : FetchDelta)
    (h : ¬ DBMStore.noopCond db c d) :
    DBMStore.merge db c d =
      ((d.updates.foldl (fun acc kv => acc.setData c kv.1 kv.2) db).setStaged
          (cpNS c) d.checkpoint,
        d.updates.map (fun kv => DBMWrite.setData c kv.1 kv.2)
          ++ [DBMWrite.setStaged (cpNS c) d.checkpoint]) := by
  unfold DBMStore.noopCond at h
  simp only [DBMStore.merge]
  rw [if_neg h]

/-! Claim C1. -/

/-- C1: for the persistent strategy and a non-no-op delta, `merge` leaves
`get_checkpoint` at the previously committed value (none if never
committed), never writes the committed-checkpoint key, and a following
`flush` makes `get_checkpoint` report the delta's checkpoint; `clear`
also leaves `get_checkpoint` unchanged, so `flush` is the only mutating
operation that changes it. -/
theorem C1_dbm_two_phase_checkpoint (db : DBMState) (c : Collab) (d : FetchDelta)
    (h : ¬ DBMStore.noopCond db c d) :
    DBMStore.get_checkpoint (DBMStore.merge db c d).1 c =
      DBMStore.get_checkpoint db c ∧
    (∀ ns cc, DBMWrite.setCommitted ns cc ∉ (DBMStore.merge db c d).2) ∧
    DBMStore.get_checkpoint (DBMStore.flush (DBMStore.merge db c d).1 c).1 c =
      d.checkpoint ∧
    DBMStore.get_checkpoint (DBMStore.clear db c).1 c =
      DBMStore.get_checkpoint db c := by
  rw [dbm_merge_not_noop db c d h]
  refine ⟨?_, ?_, ?_, ?_⟩
  · simp [DBMStore.get_checkpoint, getCp_setStaged_self, getCp_foldl_setData]
  · intro ns cc hmem
    simp only [List.mem_append, List.mem_map, List.mem_singleton] at hmem
    rcases hmem with ⟨kv, _, hkv⟩ | hkv <;> exact absurd hkv (by simp)
  · simp [DBMStore.flush, DBMStore.get_checkpoint,
      getCp_setCommitted_self, getCp_setStaged_self]
  · simp [DBMStore.clear, DBMStore.get_checkpoint, getCp_dropData]

/-- C1 witness: the two-phase behaviour at a concrete store and delta. -/
theorem C1_witness :
    DBMStore.get_checkpoint
      (DBMStore.flush
        (DBMStore.merge {} "c" { updates := [("a", 1)], checkpoint := some 1 }).1
        "c").1 "c" = some 1 :=
  (C1_dbm_two_phase_checkpoint {} "c"
    { updates := [("a", 1)], checkpoint := some 1 } (by decide)).2.2.1

/-! Claim C8. -/

/-- C8 counterexample: on an empty tracker the `checkpoint` property does
not fail — it returns `.ok none` — contradicting the claim that accessing
the checkpoint while empty is a precondition violation. -/
theorem C8_cex_checkpoint_does_not_fail :
    StateTracker.empty { _delta := none } = true ∧
    StateTracker.checkpointAccess { _delta := none } = .ok none :=
  ⟨rfl, rfl⟩

/-- C8 amended: accessing `delta` on an empty tracker is an assertion
(precondition) failure, while accessing `checkpoint` on an empty tracker
does not fail and returns none. -/
theorem C8_empty_tracker_access (t : StateTracker) (h : t.empty = true) :
    t.deltaAccess = .error () ∧ t.checkpointAccess = .ok none := by
  have hd : t._delta = none := by
    cases hdel : t._delta with
    | none => rfl
    | some d => simp [StateTracker.empty, hdel] at h
  exact ⟨by simp [StateTracker.deltaAccess, hd],
    by simp [StateTracker.checkpointAccess, StateTracker.checkpoint, hd]⟩

/-- C8 witness: the amended accessor contract at the empty tracker. -/
theorem C8_witness :
    StateTracker.deltaAccess { _delta := none } = .error () ∧
    StateTracker.checkpointAccess { _delta := none } = .ok none :=
  C8_empty_tracker_access { _delta := none } rfl

/-! Laws of the in-memory store. -/

theorem lookupKV_append_none {α : Type} (l1 l2 : Dict α) (k : String)
    (h : lookupKV l1 k = none) : lookupKV (l1 ++ l2) k = lookupKV l2 k := by
  induction l1 with
  | nil => rfl
  | cons p rest ih =>
    by_cases hp : p.1 = k
    · simp [hp] at h
    · simp only [List.cons_append, lookupKV_cons, if_neg hp]
      exact ih (by simpa [hp] using h)

theorem getState_of_lookup_some (read : ReadHook) (s : SimpleStore) (c : Collab)
    (t : StateTracker) (h : lookupKV s._state c = some t) :
    SimpleStore.getState read s c = (s, t) := by
  unfold SimpleStore.getState
  rw [h]

theorem getState_of_lookup_none (read : ReadHook) (s : SimpleStore) (c : Collab)
    (h : lookupKV s._state c = none) :
    SimpleStore.getState read s c =
      ({ _state := s._state ++ [(c, { _delta := read c, dirty := false })] },
        { _delta := read c, dirty := false }) := by
  unfold SimpleStore.getState
  rw [h]

theorem getState_lookup (read : ReadHook) (s : SimpleStore) (c : Collab) :
    lookupKV (SimpleStore.getState read s c).1._state c =
      some (SimpleStore.getState read s c).2 := by
  cases h : lookupKV s._state c with
  | some t =>
    rw [getState_of_lookup_some read s c t h]
    exact h
  | none =>
    rw [getState_of_lookup_none read s c h]
    rw [lookupKV_append_none _ _ _ h]
    simp

theorem getState_idem (read : ReadHook) (s : SimpleStore) (c : Collab) :
    SimpleStore.getState read (SimpleStore.getState read s c).1 c =
      ((SimpleStore.getState read s c).1, (SimpleStore.getState read s c).2) :=
  getState_of_lookup_some _ _ _ _ (getState_lookup read s c)

theorem simple_merge_noop (api : APICls) (read : ReadHook) (s : SimpleStore)
    (c : Collab) (d : FetchDelta) (h : SimpleStore.noopCond read s c d) :
    SimpleStore.merge api read s c d = ((SimpleStore.getState read s c).1, []) := by
  unfold SimpleStore.noopCond at h
  simp only [SimpleStore.merge]
  rw [if_pos h]

theorem simple_merge_not_noop (api : APICls) (read : ReadHook)
    (s : SimpleStore) (c : Collab) (d : FetchDelta)
    (h : ¬ SimpleStore.noopCond read s c d) :
    SimpleStore.merge api read s c d =
      (SimpleStore.setTracker (SimpleStore.getState read s c).1 c
        ((SimpleStore.getState read s c).2.setDelta api d), []) := by
  unfold SimpleStore.noopCond at h
  simp only [SimpleStore.merge]
  rw [if_neg h]

theorem SimpleStore.merge_writes (api : APICls) (read : ReadHook)
    (s : SimpleStore) (c : Collab) (d : FetchDelta) :
    (SimpleStore.merge api read s c d).2 = [] := by
  by_cases h : SimpleStore.noopCond read s c d
  · rw [simple_merge_noop api read s c d h]
  · rw [simple_merge_not_noop api read s c d h]

/-! Claim C3. -/

/-- C3: a merge whose delta has an empty update map and a checkpoint that
is absent or equal to the currently known checkpoint changes nothing in
either strategy: the in-memory store performs no snapshot write and the
(lazily loaded) tracker — accumulated data, checkpoint and dirty flag —
is exactly what it was before the call, and the persistent store leaves
the key-value store untouched and performs no write. -/
theorem C3_noop_merge_preserves (api : APICls) (read : ReadHook)
    (s : SimpleStore) (c : Collab) (d : FetchDelta) (db : DBMState)
    (hS : SimpleStore.noopCond read s c d) (hD : DBMStore.noopCond db c d) :
    (SimpleStore.merge api read s c d).2 = [] ∧
    SimpleStore.getState read (SimpleStore.merge api read s c d).1 c =
      ((SimpleStore.merge api read s c d).1, (SimpleStore.getState read s c).2) ∧
    DBMStore.merge db c d = (db, []) := by
  refine ⟨SimpleStore.merge_writes api read s c d, ?_, dbm_merge_noop db c d hD⟩
  rw [simple_merge_noop api read s c d hS]
  exact getState_idem read s c

/-- C3 witness: the no-op merge at fresh stores and an empty delta. -/
theorem C3_witness :
    DBMStore.merge {} "c" { updates := [], checkpoint := none } = ({}, []) :=
  (C3_noop_merge_preserves overwriteAPI noRead SimpleStore.init "c"
    { updates := [], checkpoint := none } {} (by decide) (by decide)).2.2

/-! Flush characterization. -/

theorem tracker_clean_eq (t : StateTracker) (h : t.dirty = false) :
    { t with dirty := false } = t := by
  cases t
  simp_all

theorem flushList_wf (l : Dict StateTracker)
    (h : ∀ p ∈ l, p.2.dirty = true → p.2._delta.isSome) :
    SimpleStore.flushList l =
      .ok (SimpleStore.flushedTrackers l, SimpleStore.dirtyWrites l) := by
  induction l with
  | nil => rfl
  | cons p rest ih =>
    obtain ⟨n, t⟩ := p
    have hrest : ∀ q ∈ rest, q.2.dirty = true → q.2._delta.isSome :=
      fun q hq => h q (List.mem_cons_of_mem _ hq)
    cases hd : t.dirty with
    | true =>
      have hsome := h (n, t) (List.mem_cons_self _ _) hd
      cases ht : t._delta with
      | none =>
        rw [ht] at hsome
        simp at hsome
      | some dl =>
        simp [SimpleStore.flushList, hd, ht, ih hrest,
          SimpleStore.flushedTrackers, SimpleStore.dirtyWrites]
    | false =>
      simp [SimpleStore.flushList, hd, ih hrest, SimpleStore.flushedTrackers,
        SimpleStore.dirtyWrites, tracker_clean_eq t hd]

theorem SimpleStore.flush_wf (s : SimpleStore) (c : Collab)
    (h : SimpleStore.wf s) :
    SimpleStore.flush s c =
      .ok ({ _state := SimpleStore.flushedTrackers s._state },
        SimpleStore.dirtyWrites s._state) := by
  unfold SimpleStore.flush
  rw [flushList_wf s._state h]

theorem flushedTrackers_clean (l : Dict StateTracker)
    (h : ∀ p ∈ l, p.2.dirty = false) : SimpleStore.flushedTrackers l = l := by
  induction l with
  | nil => rfl
  | cons p rest ih =>
    have hp := h p (List.mem_cons_self _ _)
    simp only [SimpleStore.flushedTrackers, List.map_cons]
    rw [tracker_clean_eq p.2 hp]
    have := ih (fun q hq => h q (List.mem_cons_of_mem _ hq))
    simp only [SimpleStore.flushedTrackers] at this
    rw [this]

theorem dirtyWrites_clean (l : Dict StateTracker)
    (h : ∀ p ∈ l, p.2.dirty = false) : SimpleStore.dirtyWrites l = [] := by
  induction l with
  | nil => rfl
  | cons p rest ih =>
    obtain ⟨n, t⟩ := p
    have hp := h (n, t) (List.mem_cons_self _ _)
    simp only at hp
    simp [SimpleStore.dirtyWrites, hp,
      ih (fun q hq => h q (List.mem_cons_of_mem _ hq))]

theorem flushedTrackers_all_clean (l : Dict StateTracker) :
    ∀ p ∈ SimpleStore.flushedTrackers l, p.2.dirty = false := by
  intro p hp
  simp only [SimpleStore.flushedTrackers, List.mem_map] at hp
  obtain ⟨q, _, hq⟩ := hp
  rw [← hq]

/-! Claim C4. -/

/-- C4 counterexample: on the persistent strategy, flushing a
collaboration with no pending merges (a fresh store) still performs a
durable write — it writes the committed-checkpoint key — contradicting
the claim that no key is written in any namespace. -/
theorem C4_cex_dbm_flush_writes :
    (DBMStore.flush {} "c").2 = [DBMWrite.setCommitted (cpNS "c") none] ∧
    (DBMStore.flush {} "c").2 ≠ [] := by
  constructor
  · rfl
  · decide

/-- C4 amended: on the in-memory strategy, flushing when every tracked
collaboration is clean performs no snapshot write and leaves the store
unchanged; on the persistent strategy, flush always performs exactly one
write — the committed-checkpoint key receives the staged value — and
when the collaboration has no pending merge (staged equals committed)
the reported checkpoint is unchanged. -/
theorem C4_flush_clean (s : SimpleStore) (c c2 : Collab) (db : DBMState)
    (hclean : ∀ p ∈ s._state, p.2.dirty = false)
    (hpend : (db.getCp (cpNS c2)).staged = (db.getCp (cpNS c2)).committed) :
    SimpleStore.flush s c = .ok (s, []) ∧
    (DBMStore.flush db c2).2 =
      [DBMWrite.setCommitted (cpNS c2) (db.getCp (cpNS c2)).staged] ∧
    DBMStore.get_checkpoint (DBMStore.flush db c2).1 c2 =
      DBMStore.get_checkpoint db c2 := by
  refine ⟨?_, rfl, ?_⟩
  · have hwf : SimpleStore.wf s := by
      intro p hp hdirty
      rw [hclean p hp] at hdirty
      exact absurd hdirty (by simp)
    rw [SimpleStore.flush_wf s c hwf, flushedTrackers_clean s._state hclean,
      dirtyWrites_clean s._state hclean]
  · simp only [DBMStore.flush, DBMStore.get_checkpoint, getCp_setCommitted_self]
    exact hpend

/-- C4 witness: the amended flush behaviour at fresh stores. -/
theorem C4_witness :
    SimpleStore.flush SimpleStore.init "c" = .ok (SimpleStore.init, []) :=
  (C4_flush_clean SimpleStore.init "c" "c" {} (by simp [SimpleStore.init]) rfl).1

/-! Claim C7. -/

/-- C7: one in-memory `flush` call, regardless of its argument, turns the
tracker dictionary into the same dictionary with every dirty flag
cleared (each tracked collaboration visited exactly once, in order) and
performs exactly one snapshot write per dirty tracker; `merge` and
`clear` never perform a snapshot write. -/
theorem C7_flush_exactly_dirty (s : SimpleStore) (c1 c2 : Collab)
    (api : APICls) (read : ReadHook) (d : FetchDelta)
    (hwf : SimpleStore.wf s) :
    SimpleStore.flush s c1 =
      .ok ({ _state := SimpleStore.flushedTrackers s._state },
        SimpleStore.dirtyWrites s._state) ∧
    SimpleStore.flush s c1 = SimpleStore.flush s c2 ∧
    (∀ p ∈ SimpleStore.flushedTrackers s._state, p.2.dirty = false) ∧
    (SimpleStore.merge api read s c1 d).2 = [] ∧
    (SimpleStore.clear s c1).2 = [] :=
  ⟨SimpleStore.flush_wf s c1 hwf, rfl, flushedTrackers_all_clean s._state,
    SimpleStore.merge_writes api read s c1 d, rfl⟩

/-- C7 witness: flushing a store with one dirty tracker writes exactly
that tracker's delta and clears its flag. -/
theorem C7_witness :
    SimpleStore.flush
      { _state := [("c",
          { _delta := some { updates := [("a", 1)], checkpoint := some 1 },
            dirty := true })] } "x" =
      .ok ({ _state := [("c",
          { _delta := some { updates := [("a", 1)], checkpoint := some 1 },
            dirty := false })] },
        [("c", { updates := [("a", 1)], checkpoint := some 1 })]) :=
  (C7_flush_exactly_dirty
    { _state := [("c",
        { _delta := some { updates := [("a", 1)], checkpoint := some 1 },
          dirty := true })] } "x" "y" overwriteAPI noRead
    { updates := [], checkpoint := none }
    (by unfold SimpleStore.wf; decide)).1

/-! Claim C6. -/

/-- C6 counterexample: on the in-memory strategy `clear` is not an
irreversible discard of durable state: it performs no durable delete, and
with a backing store holding a previously written snapshot (read hook
`someRead`) the cleared collaboration's checkpoint is reloaded on the
next access — `get_checkpoint` still reports it after `clear`. -/
theorem C6_cex_simple_clear_not_durable :
    (SimpleStore.clear
      (SimpleStore.getState someRead SimpleStore.init "c").1 "c").2 = [] ∧
    (SimpleStore.get_checkpoint someRead
      (SimpleStore.clear
        (SimpleStore.getState someRead SimpleStore.init "c").1 "c").1 "c").2 =
      some 5 := by
  constructor
  · rfl
  · decide

/-- C6 amended: `clear` discards the in-memory tracker of the
collaboration (other collaborations untouched) but performs no durable
delete on the in-memory strategy; on the persistent strategy it drops
exactly the data namespace — existence becomes false, the drop is the
only write — and leaves the checkpoint namespace, so `get_checkpoint` is
unchanged. -/
theorem C6_clear_scope (s : SimpleStore) (c : Collab) (db : DBMState)
    (c2 : Collab) (hc2 : c2 ≠ c) :
    lookupKV (SimpleStore.clear s c).1._state c = none ∧
    (SimpleStore.clear s c).2 = [] ∧
    lookupKV (SimpleStore.clear s c).1._state c2 = lookupKV s._state c2 ∧
    (DBMStore.clear db c).1.getData c = [] ∧
    DBMStore.existsData (DBMStore.clear db c).1 c = false ∧
    (DBMStore.clear db c).2 = [DBMWrite.dropData c] ∧
    DBMStore.get_checkpoint (DBMStore.clear db c).1 c =
      DBMStore.get_checkpoint db c := by
  refine ⟨lookupKV_filter_ne_self s._state c, rfl,
    lookupKV_filter_ne_other s._state c c2 hc2, getData_dropData_self db c,
    ?_, rfl, rfl⟩
  simp only [DBMStore.existsData, DBMStore.clear, DBMState.dropData]
  rw [lookupKV_filter_ne_self]
  rfl

/-- C6 witness: clearing a loaded collaboration at concrete stores. -/
theorem C6_witness :
    lookupKV
      (SimpleStore.clear
        (SimpleStore.getState someRead SimpleStore.init "c").1 "c").1._state
      "c" = none :=
  (C6_clear_scope (SimpleStore.getState someRead SimpleStore.init "c").1 "c"
    (DBMStore.merge {} "c" { updates := [("a", 1)], checkpoint := some 1 }).1
    "d" (by decide)).1

/-! Claim C9. -/

theorem dictSet_nonempty_inv (ret : Dict ConvMap) (c : String) (b : ConvMap)
    (hret : ∀ n m, lookupKV ret n = some m → m ≠ []) (hb : b ≠ []) :
    ∀ n m, lookupKV (dictSet ret c b) n = some m → m ≠ [] := by
  intro n m hm
  by_cases hn : n = c
  · subst hn
    rw [lookupKV_dictSet_self] at hm
    cases hm
    exact hb
  · rw [lookupKV_dictSet_ne ret c n b hn] at hm
    exact hret n m hm

theorem getForSigAux_simple_nonempty (api : APICls) (read : ReadHook)
    (sig : SigType) (collabs : List Collab) :
    ∀ (s : SimpleStore) (ret : Dict ConvMap),
      (∀ n m, lookupKV ret n = some m → m ≠ []) →
      ∀ n m,
        lookupKV (SimpleStore.getForSigAux api read s ret collabs sig).2 n =
          some m → m ≠ [] := by
  induction collabs with
  | nil => exact fun s ret hret n m hm => hret n m hm
  | cons c rest ih =>
    intro s ret hret n m hm
    simp only [SimpleStore.getForSigAux] at hm
    cases hdel : (SimpleStore.getState read s c).2._delta with
    | none =>
      rw [hdel] at hm
      exact ih _ ret hret n m hm
    | some dl =>
      rw [hdel] at hm
      simp only at hm
      by_cases hbs :
        (lookupKV (api.naive_convert_to_signal_type [sig] c dl.updates) sig).getD
          [] = []
      · rw [if_pos hbs] at hm
        exact ih _ ret hret n m hm
      · rw [if_neg hbs] at hm
        exact ih _ _ (dictSet_nonempty_inv ret c _ hret hbs) n m hm

theorem getForSigAux_dbm_nonempty (api : APICls) (db : DBMState)
    (sig : SigType) (collabs : List Collab) :
    ∀ ret : Dict ConvMap,
      (∀ n m, lookupKV ret n = some m → m ≠ []) →
      ∀ n m,
        lookupKV (DBMStore.getForSigAux api db ret collabs sig) n = some m →
        m ≠ [] := by
  induction collabs with
  | nil => exact fun ret hret n m hm => hret n m hm
  | cons c rest ih =>
    intro ret hret n m hm
    simp only [DBMStore.getForSigAux] at hm
    by_cases hbs :
      (lookupKV (api.naive_convert_to_signal_type [sig] c (db.getData c)) sig).getD
        [] = []
    · rw [if_pos hbs] at hm
      exact ih ret hret n m hm
    · rw [if_neg hbs] at hm
      exact ih _ (dictSet_nonempty_inv ret c _ hret hbs) n m hm

/-- C9: every entry of the `get_for_signal_type` result, in either
strategy, is a non-empty converted map; hence a collaboration that
contributes zero records convertible to the requested signal type never
appears in the result (its projection would be the empty map, which is
never inserted). -/
theorem C9_projection_omits_empty (api : APICls) (read : ReadHook)
    (s : SimpleStore) (db : DBMState) (collabs : List Collab) (sig : SigType)
    (n : String) :
    (∀ m, lookupKV (SimpleStore.get_for_signal_type api read s collabs sig).2 n =
      some m → m ≠ []) ∧
    (∀ m, lookupKV (DBMStore.get_for_signal_type api db collabs sig) n =
      some m → m ≠ []) :=
  ⟨fun m hm => getForSigAux_simple_nonempty api read sig collabs s []
      (fun _ _ hx => by simp at hx) n m hm,
    fun m hm => getForSigAux_dbm_nonempty api db sig collabs []
      (fun _ _ hx => by simp at hx) n m hm⟩

/-! Claim C10. -/

theorem wf_getState (read : ReadHook) (s : SimpleStore) (c : Collab)
    (h : SimpleStore.wf s) : SimpleStore.wf (SimpleStore.getState read s c).1 := by
  cases hl : lookupKV s._state c with
  | some t =>
    rw [getState_of_lookup_some read s c t hl]
    exact h
  | none =>
    rw [getState_of_lookup_none read s c hl]
    intro p hp hd
    rcases List.mem_append.mp hp with hmem | hmem
    · exact h p hmem hd
    · rw [List.mem_singleton.mp hmem] at hd
      simp at hd

theorem wf_setTracker (s : SimpleStore) (c : Collab) (t : StateTracker)
    (h : SimpleStore.wf s) (ht : t.dirty = true → t._delta.isSome) :
    SimpleStore.wf (SimpleStore.setTracker s c t) := by
  intro p hp hd
  simp only [SimpleStore.setTracker, List.mem_map] at hp
  obtain ⟨q, hq, hpq⟩ := hp
  subst hpq
  by_cases hqc : q.1 = c
  · rw [if_pos hqc] at hd ⊢
    exact ht hd
  · rw [if_neg hqc] at hd ⊢
    exact h q hq hd

theorem setDelta_isSome (api : APICls) (t : StateTracker) (d : FetchDelta) :
    (t.setDelta api d)._delta.isSome := by
  cases hdel : t._delta <;> simp [StateTracker.setDelta, hdel]

theorem wf_merge (api : APICls) (read : ReadHook) (s : SimpleStore) (c : Collab)
    (d : FetchDelta) (h : SimpleStore.wf s) :
    SimpleStore.wf (SimpleStore.merge api read s c d).1 := by
  by_cases hno : SimpleStore.noopCond read s c d
  · rw [simple_merge_noop api read s c d hno]
    exact wf_getState read s c h
  · rw [simple_merge_not_noop api read s c d hno]
    exact wf_setTracker _ c _ (wf_getState read s c h)
      (fun _ => setDelta_isSome api _ d)

theorem wf_getForSigAux (api : APICls) (read : ReadHook) (sig : SigType)
    (collabs : List Collab) :
    ∀ (s : SimpleStore) (ret : Dict ConvMap), SimpleStore.wf s →
      SimpleStore.wf (SimpleStore.getForSigAux api read s ret collabs sig).1 := by
  induction collabs with
  | nil => exact fun s ret h => h
  | cons c rest ih =>
    intro s ret h
    simp only [SimpleStore.getForSigAux]
    split
    · exact ih _ ret (wf_getState read s c h)
    · split
      · exact ih _ ret (wf_getState read s c h)
      · exact ih _ _ (wf_getState read s c h)

theorem reachable_wf (s : SimpleStore) (h : Reachable s) : SimpleStore.wf s := by
  induction h with
  | init =>
    intro p hp _
    simp [SimpleStore.init] at hp
  | mergeStep api read s c d _ ih => exact wf_merge api read s c d ih
  | flushStep s c s1 ws _ hfl ih =>
    rw [SimpleStore.flush_wf s c ih] at hfl
    simp only [Except.ok.injEq, Prod.mk.injEq] at hfl
    obtain ⟨h1, _⟩ := hfl
    rw [← h1]
    intro p hp hd
    rw [flushedTrackers_all_clean s._state p hp] at hd
    exact absurd hd (by simp)
  | clearStep s c _ ih =>
    intro p hp hd
    exact ih p (List.mem_of_mem_filter hp) hd
  | getCpStep read s c _ ih => exact wf_getState read s c ih
  | getForSigStep api read s collabs sig _ ih =>
    exact wf_getForSigAux api read sig collabs s [] ih

/-- C10: every store reachable through the in-memory strategy's public
operations satisfies the invariant that a dirty tracker has an
accumulated delta, and consequently the `assert state.delta is not None`
in `flush` can never fail: `flush` succeeds on every reachable store. -/
theorem C10_dirty_implies_delta (s : SimpleStore) (c : Collab)
    (h : Reachable s) :
    SimpleStore.wf s ∧ isOkE (SimpleStore.flush s c) = true := by
  have hwf := reachable_wf s h
  refine ⟨hwf, ?_⟩
  rw [SimpleStore.flush_wf s c hwf]
  rfl

/-- C10 witness: the invariant and flush success at a store reached by
one merge. -/
theorem C10_witness :
    isOkE (SimpleStore.flush
      (SimpleStore.merge overwriteAPI noRead SimpleStore.init "c"
        { updates := [("a", 1)], checkpoint := some 1 }).1 "c") = true :=
  (C10_dirty_implies_delta _ "c"
    (Reachable.mergeStep overwriteAPI noRead SimpleStore.init "c"
      { updates := [("a", 1)], checkpoint := some 1 } Reachable.init)).2

/-- C9 witness: both projections evaluated at stores holding one record
for collaboration "c". -/
theorem C9_witness :
    ([("a", 1)] : ConvMap) ≠ [] ∧ ([("b", 2)] : ConvMap) ≠ [] :=
  ⟨(C9_projection_omits_empty overwriteAPI noRead
      (SimpleStore.merge overwriteAPI noRead SimpleStore.init "c"
        { updates := [("a", 1)], checkpoint := some 1 }).1
      {} ["c"] "sig" "c").1 [("a", 1)] (by decide),
    (C9_projection_omits_empty overwriteAPI noRead SimpleStore.init
      (DBMStore.merge {} "c" { updates := [("b", 2)], checkpoint := some 1 }).1
      ["c"] "sig" "c").2 [("b", 2)] (by decide)⟩

/-! Claim C2. -/

theorem lookupKV_map_setTracker (l : Dict StateTracker) (c : Collab)
    (t2 : StateTracker) :
    lookupKV (l.map (fun p => if p.1 = c then (c, t2) else p)) c =
      (lookupKV l c).map (fun _ => t2) := by
  induction l with
  | nil => rfl
  | cons p rest ih =>
    by_cases hp : p.1 = c <;> simp [hp, ih]

theorem lookupKV_map_setTracker_ne (l : Dict StateTracker) (c : Collab)
    (t2 : StateTracker) (c2 : Collab) (h : c2 ≠ c) :
    lookupKV (l.map (fun p => if p.1 = c then (c, t2) else p)) c2 =
      lookupKV l c2 := by
  induction l with
  | nil => rfl
  | cons p rest ih =>
    by_cases hp : p.1 = c
    · simp [hp, Ne.symm h, ih]
    · by_cases hp2 : p.1 = c2 <;> simp [hp, hp2, h, ih]

theorem setDelta_of_none (api : APICls) (t : StateTracker) (d : FetchDelta)
    (h : t._delta = none) :
    t.setDelta api d =
      { _delta := some { updates := api.naive_fetch_merge [] d.updates,
                         checkpoint := d.checkpoint },
        dirty := true } := by
  simp [StateTracker.setDelta, h]

theorem setDelta_of_some (api : APICls) (t : StateTracker) (d dl : FetchDelta)
    (h : t._delta = some dl) :
    t.setDelta api d =
      { _delta := some { updates := api.naive_fetch_merge dl.updates d.updates,
                         checkpoint := d.checkpoint },
        dirty := true } := by
  simp [StateTracker.setDelta, h]

theorem not_noopCond_of_ne_nil (read : ReadHook) (s : SimpleStore) (c : Collab)
    (d : FetchDelta) (hd : d.updates ≠ []) :
    ¬ SimpleStore.noopCond read s c d :=
  fun hno => hd (List.length_eq_zero.mp hno.1)

theorem merge_tracker_step (api : APICls) (read : ReadHook) (s : SimpleStore)
    (c : Collab) (d : FetchDelta) (t : StateTracker)
    (hs : lookupKV s._state c = some t) (hd : d.updates ≠ []) :
    lookupKV (SimpleStore.merge api read s c d).1._state c =
      some (t.setDelta api d) := by
  rw [simple_merge_not_noop api read s c d
    (not_noopCond_of_ne_nil read s c d hd)]
  rw [getState_of_lookup_some read s c t hs]
  show lookupKV (s._state.map _) c = _
  rw [lookupKV_map_setTracker, hs]
  rfl

theorem merge_tracker_first (api : APICls) (read : ReadHook) (s : SimpleStore)
    (c : Collab) (d : FetchDelta) (hs : lookupKV s._state c = none)
    (hr : read c = none) (hd : d.updates ≠ []) :
    lookupKV (SimpleStore.merge api read s c d).1._state c =
      some { _delta := some { updates := api.naive_fetch_merge [] d.updates,
                              checkpoint := d.checkpoint },
             dirty := true } := by
  rw [simple_merge_not_noop api read s c d
    (not_noopCond_of_ne_nil read s c d hd)]
  rw [getState_of_lookup_none read s c hs]
  show lookupKV
    ((s._state ++
        [(c, ({ _delta := read c, dirty := false } : StateTracker))]).map _) c = _
  rw [lookupKV_map_setTracker, lookupKV_append_none _ _ _ hs]
  have hnone : ({ _delta := read c, dirty := false } : StateTracker)._delta =
      none := hr
  simp [setDelta_of_none api _ d hnone]

theorem mergeAll_tracker (api : APICls) (read : ReadHook) (c : Collab)
    (ds : List FetchDelta) (hne : ∀ d ∈ ds, d.updates ≠ []) :
    ∀ (s : SimpleStore) (t : StateTracker) (dl : FetchDelta),
      lookupKV s._state c = some t → t._delta = some dl →
      ∃ t2,
        lookupKV (SimpleStore.mergeAll api read c s ds)._state c = some t2 ∧
        t2._delta = some
          { updates := ds.foldl (fun m d => api.naive_fetch_merge m d.updates)
              dl.updates,
            checkpoint := ds.foldl (fun _ d => d.checkpoint) dl.checkpoint } := by
  induction ds with
  | nil =>
    intro s t dl hs ht
    refine ⟨t, hs, ?_⟩
    rw [ht]
    rfl
  | cons d rest ih =>
    intro s t dl hs ht
    have hd : d.updates ≠ [] := hne d (List.mem_cons_self _ _)
    have hrest : ∀ x ∈ rest, x.updates ≠ [] :=
      fun x hx => hne x (List.mem_cons_of_mem _ hx)
    have hstep := merge_tracker_step api read s c d t hs hd
    rw [setDelta_of_some api t d dl ht] at hstep
    exact ih hrest (SimpleStore.merge api read s c d).1 _ _ hstep rfl

theorem foldl_checkpoint_last (rest : List FetchDelta) :
    ∀ d : FetchDelta,
      rest.foldl (fun _ x => x.checkpoint) d.checkpoint =
        ((d :: rest).getLast (by simp)).checkpoint := by
  induction rest with
  | nil => intro d; rfl
  | cons e rest ih =>
    intro d
    rw [List.foldl_cons, ih e]
    exact congrArg FetchDelta.checkpoint
      (List.getLast_cons (List.cons_ne_nil e rest)).symm

/-- C2 counterexample: merging D1 = ({"a": 1}, checkpoint 5) and then
D2 = ({}, no checkpoint) — D2 triggers the no-op short-circuit and is
skipped — leaves the tracker checkpoint at 5, while the claim demands
the last delta's checkpoint, none. -/
theorem C2_cex_last_delta_noop :
    (SimpleStore.getState noRead
      (SimpleStore.mergeAll overwriteAPI noRead "c" SimpleStore.init
        [{ updates := [("a", 1)], checkpoint := some 5 },
          { updates := [], checkpoint := none }]) "c").2.checkpoint = some 5 ∧
    ({ updates := [], checkpoint := none } : FetchDelta).checkpoint = none ∧
    (some 5 : Option Checkpoint) ≠ none := by
  refine ⟨by decide, rfl, by decide⟩

/-- C2 amended: for a fresh collaboration (no tracker, no prior
snapshot) that receives deltas D1..Dn (n ≥ 1) none of which triggers the
no-op short-circuit (each has a non-empty update map), the accumulated
update map equals the left fold of the update maps by
`naive_fetch_merge` starting from the empty map, and the tracker's
checkpoint equals Dn's checkpoint. -/
theorem C2_merge_accumulates (api : APICls) (read : ReadHook) (s : SimpleStore)
    (c : Collab) (ds : List FetchDelta) (hne : ∀ d ∈ ds, d.updates ≠ [])
    (h0 : ds ≠ []) (hs : lookupKV s._state c = none) (hr : read c = none) :
    (SimpleStore.getState read (SimpleStore.mergeAll api read c s ds) c).2._delta =
      some
        { updates := ds.foldl (fun m d => api.naive_fetch_merge m d.updates) [],
          checkpoint := (ds.getLast h0).checkpoint } := by
  cases ds with
  | nil => exact absurd rfl h0
  | cons d rest =>
    have hd : d.updates ≠ [] := hne d (List.mem_cons_self _ _)
    have hrest : ∀ x ∈ rest, x.updates ≠ [] :=
      fun x hx => hne x (List.mem_cons_of_mem _ hx)
    have h1 := merge_tracker_first api read s c d hs hr hd
    obtain ⟨t2, hl2, hdel2⟩ :=
      mergeAll_tracker api read c rest hrest
        (SimpleStore.merge api read s c d).1 _ _ h1 rfl
    simp only [SimpleStore.mergeAll]
    rw [getState_of_lookup_some read _ c t2 hl2, hdel2,
      foldl_checkpoint_last rest d]
    rfl

/-- C2 witness: the amended accumulation at two concrete overwrite
deltas. -/
theorem C2_witness :
    (SimpleStore.getState noRead
      (SimpleStore.mergeAll overwriteAPI noRead "c" SimpleStore.init
        [{ updates := [("a", 1)], checkpoint := some 1 },
          { updates := [("b", 2)], checkpoint := some 2 }]) "c").2._delta =
      some { updates := [("a", 1), ("b", 2)], checkpoint := some 2 } := by
  rw [C2_merge_accumulates overwriteAPI noRead SimpleStore.init "c"
    [{ updates := [("a", 1)], checkpoint := some 1 },
      { updates := [("b", 2)], checkpoint := some 2 }]
    (by decide) (by decide) rfl rfl]
  decide

/-! Claim C5. -/

/-- C5 counterexample: the two strategies do not satisfy the same
observable contract for every external merge function.  With the
merge-by-addition function, merging {"a": 1} and then {"a": 2} gives the
in-memory strategy a = 3, while the persistent strategy — whose merge
writes each record by per-key overwrite regardless of
`naive_fetch_merge` — stores a = 2; the projections differ. -/
theorem C5_cex_strategies_diverge :
    projSimpleRun addAPI noRead "c"
      [StoreOp.mergeOp { updates := [("a", 1)], checkpoint := some 1 },
        StoreOp.mergeOp { updates := [("a", 2)], checkpoint := some 2 },
        StoreOp.flushOp] "sig" = .ok [("c", [("a", 3)])] ∧
    projDBMRun addAPI "c"
      [StoreOp.mergeOp { updates := [("a", 1)], checkpoint := some 1 },
        StoreOp.mergeOp { updates := [("a", 2)], checkpoint := some 2 },
        StoreOp.flushOp] "sig" = [("c", [("a", 2)])] ∧
    ([("c", [("a", 3)])] : Dict ConvMap) ≠ [("c", [("a", 2)])] := by
  refine ⟨rfl, rfl, by decide⟩

theorem getData_foldl_setData (l : UpdateMap) (db : DBMState) (ns : String) :
    (l.foldl (fun acc kv => acc.setData ns kv.1 kv.2) db).getData ns =
      dictUpdate (db.getData ns) l := by
  induction l generalizing db with
  | nil => rfl
  | cons kv rest ih =>
    rw [List.foldl_cons, ih (db.setData ns kv.1 kv.2), getData_setData_self]
    rfl

theorem equivInv_init (c : Collab) : equivInv c SimpleStore.init {} := by
  refine ⟨?_, ?_, rfl, rfl⟩
  · intro p hp _
    simp [SimpleStore.init] at hp
  · intro p hp
    simp [SimpleStore.init] at hp

theorem names_getState (read : ReadHook) (s : SimpleStore) (c : Collab)
    (h : ∀ p ∈ s._state, p.1 = c) :
    ∀ p ∈ (SimpleStore.getState read s c).1._state, p.1 = c := by
  cases hl : lookupKV s._state c with
  | some t =>
    rw [getState_of_lookup_some read s c t hl]
    exact h
  | none =>
    rw [getState_of_lookup_none read s c hl]
    intro p hp
    rcases List.mem_append.mp hp with hmem | hmem
    · exact h p hmem
    · rw [List.mem_singleton.mp hmem]

theorem names_setTracker (s : SimpleStore) (c : Collab) (t : StateTracker)
    (h : ∀ p ∈ s._state, p.1 = c) :
    ∀ p ∈ (SimpleStore.setTracker s c t)._state, p.1 = c := by
  intro p hp
  simp only [SimpleStore.setTracker, List.mem_map] at hp
  obtain ⟨q, hq, hpq⟩ := hp
  subst hpq
  by_cases hqc : q.1 = c
  · rw [if_pos hqc]
  · rw [if_neg hqc]
    exact h q hq

theorem names_merge (api : APICls) (read : ReadHook) (s : SimpleStore)
    (c : Collab) (d : FetchDelta) (h : ∀ p ∈ s._state, p.1 = c) :
    ∀ p ∈ (SimpleStore.merge api read s c d).1._state, p.1 = c := by
  by_cases hno : SimpleStore.noopCond read s c d
  · rw [simple_merge_noop api read s c d hno]
    exact names_getState read s c h
  · rw [simple_merge_not_noop api read s c d hno]
    exact names_setTracker _ c _ (names_getState read s c h)

theorem viewData_merge (api : APICls) (s : SimpleStore) (c : Collab)
    (d : FetchDelta) (hd : d.updates ≠ []) :
    viewData (SimpleStore.merge api noRead s c d).1 c =
      api.naive_fetch_merge (viewData s c) d.updates := by
  unfold viewData SimpleStore.simpleView
  cases hl : lookupKV s._state c with
  | none =>
    rw [merge_tracker_first api noRead s c d hl rfl hd]
  | some t =>
    rw [merge_tracker_step api noRead s c d t hl hd]
    cases hdel : t._delta with
    | none =>
      rw [setDelta_of_none api t d hdel]
      simp [hdel]
    | some dl =>
      rw [setDelta_of_some api t d dl hdel]
      simp [hdel]

theorem viewCp_merge (api : APICls) (s : SimpleStore) (c : Collab)
    (d : FetchDelta) (hd : d.updates ≠ []) :
    viewCp (SimpleStore.merge api noRead s c d).1 c = d.checkpoint := by
  unfold viewCp SimpleStore.simpleView
  cases hl : lookupKV s._state c with
  | none =>
    rw [merge_tracker_first api noRead s c d hl rfl hd]
  | some t =>
    rw [merge_tracker_step api noRead s c d t hl hd]
    cases hdel : t._delta with
    | none => rw [setDelta_of_none api t d hdel]
    | some dl => rw [setDelta_of_some api t d dl hdel]

theorem equivInv_merge (api : APICls) (c : Collab) (d : FetchDelta)
    (hd : d.updates ≠ []) (hapi : api.naive_fetch_merge = dictUpdate)
    (s : SimpleStore) (db : DBMState) (h : equivInv c s db) :
    equivInv c (SimpleStore.merge api noRead s c d).1
      (DBMStore.merge db c d).1 := by
  obtain ⟨hwf, hnames, hdata, hstag⟩ := h
  have hDno : ¬ DBMStore.noopCond db c d :=
    fun hno => hd (List.length_eq_zero.mp hno.1)
  refine ⟨wf_merge api noRead s c d hwf, names_merge api noRead s c d hnames,
    ?_, ?_⟩
  · rw [dbm_merge_not_noop db c d hDno]
    show ((d.updates.foldl (fun acc kv => acc.setData c kv.1 kv.2) db).setStaged
      (cpNS c) d.checkpoint).getData c = _
    rw [getData_setStaged, getData_foldl_setData,
      viewData_merge api s c d hd, hapi, hdata]
  · rw [dbm_merge_not_noop db c d hDno]
    show (((d.updates.foldl (fun acc kv => acc.setData c kv.1 kv.2) db).setStaged
      (cpNS c) d.checkpoint).getCp (cpNS c)).staged = _
    rw [getCp_setStaged_self, viewCp_merge api s c d hd]

theorem lookupKV_flushedTrackers (l : Dict StateTracker) (c : Collab) :
    lookupKV (SimpleStore.flushedTrackers l) c =
      (lookupKV l c).map (fun t => { t with dirty := false }) := by
  induction l with
  | nil => rfl
  | cons p rest ih =>
    simp only [SimpleStore.flushedTrackers, List.map_cons, lookupKV_cons] at ih ⊢
    by_cases hp : p.1 = c <;> simp [hp, ih]

theorem simpleView_flushed (s : SimpleStore) (c : Collab) :
    SimpleStore.simpleView { _state := SimpleStore.flushedTrackers s._state } c =
      SimpleStore.simpleView s c := by
  unfold SimpleStore.simpleView
  show (match lookupKV (SimpleStore.flushedTrackers s._state) c with
    | none => none
    | some t => match t._delta with
      | none => none
      | some d => some (d.updates, d.checkpoint)) = _
  rw [lookupKV_flushedTrackers]
  cases lookupKV s._state c with
  | none => rfl
  | some t => rfl

theorem names_flushed (s : SimpleStore) (c : Collab)
    (h : ∀ p ∈ s._state, p.1 = c) :
    ∀ p ∈ SimpleStore.flushedTrackers s._state, p.1 = c := by
  intro p hp
  simp only [SimpleStore.flushedTrackers, List.mem_map] at hp
  obtain ⟨q, hq, hpq⟩ := hp
  subst hpq
  exact h q hq

theorem equivInv_flush (c : Collab) (s : SimpleStore) (db : DBMState)
    (h : equivInv c s db) :
    equivInv c { _state := SimpleStore.flushedTrackers s._state }
      (DBMStore.flush db c).1 := by
  obtain ⟨hwf, hnames, hdata, hstag⟩ := h
  refine ⟨?_, names_flushed s c hnames, ?_, ?_⟩
  · intro p hp hdirty
    rw [flushedTrackers_all_clean s._state p hp] at hdirty
    exact absurd hdirty (by simp)
  · show ((db.setCommitted (cpNS c) _).getData c) = _
    rw [getData_setCommitted, hdata]
    unfold viewData
    rw [simpleView_flushed]
  · show (((db.setCommitted (cpNS c) _).getCp (cpNS c)).staged) = _
    rw [getCp_setCommitted_self]
    show (db.getCp (cpNS c)).staged = _
    rw [hstag]
    unfold viewCp
    rw [simpleView_flushed]

theorem equivRun (api : APICls) (hapi : api.naive_fetch_merge = dictUpdate)
    (c : Collab) :
    ∀ ops : List StoreOp, (∀ op ∈ ops, op.okMerge = true) →
      ∀ (s : SimpleStore) (db : DBMState), equivInv c s db →
      ∃ s2, runSimple api noRead c s ops = .ok s2 ∧
        equivInv c s2 (runDBM c db ops) := by
  intro ops
  induction ops with
  | nil => exact fun _ s db h => ⟨s, rfl, h⟩
  | cons op rest ih =>
    intro hok s db h
    have hokr : ∀ x ∈ rest, x.okMerge = true :=
      fun x hx => hok x (List.mem_cons_of_mem _ hx)
    cases op with
    | mergeOp d =>
      have hd : d.updates ≠ [] := by
        intro hnil
        have hm := hok _ (List.mem_cons_self _ _)
        simp [StoreOp.okMerge, hnil] at hm
      exact ih hokr _ _ (equivInv_merge api c d hd hapi s db h)
    | flushOp =>
      have hfl := SimpleStore.flush_wf s c h.1
      obtain ⟨s2, hrun, hinv⟩ := ih hokr _ _ (equivInv_flush c s db h)
      refine ⟨s2, ?_, hinv⟩
      show (match SimpleStore.flush s c with
        | .error e => Except.error e
        | .ok (s1, _) => runSimple api noRead c s1 rest) = .ok s2
      rw [hfl]
      exact hrun

theorem runDBM_last_flush (c : Collab) :
    ∀ (ops : List StoreOp) (db : DBMState),
      ops.getLast? = some StoreOp.flushOp →
      ((runDBM c db ops).getCp (cpNS c)).committed =
        ((runDBM c db ops).getCp (cpNS c)).staged := by
  intro ops
  induction ops with
  | nil =>
    intro db h
    cases h
  | cons op rest ih =>
    intro db h
    cases rest with
    | nil =>
      cases op with
      | mergeOp d => simp [List.getLast?] at h
      | flushOp =>
        simp [runDBM, DBMStore.flush, getCp_setCommitted_self]
    | cons op2 rest2 =>
      have h2 : (op2 :: rest2).getLast? = some StoreOp.flushOp := by
        rw [List.getLast?_cons_cons] at h
        exact h
      cases op with
      | mergeOp d => exact ih _ h2
      | flushOp => exact ih _ h2

theorem get_checkpoint_viewCp (s : SimpleStore) (c : Collab) :
    (SimpleStore.get_checkpoint noRead s c).2 = viewCp s c := by
  unfold SimpleStore.get_checkpoint viewCp SimpleStore.simpleView
  cases hl : lookupKV s._state c with
  | none =>
    rw [getState_of_lookup_none noRead s c hl]
    simp [StateTracker.checkpoint, noRead]
  | some t =>
    rw [getState_of_lookup_some noRead s c t hl]
    unfold StateTracker.checkpoint
    cases hdel : t._delta <;> simp [hdel]

theorem proj_eq_of_inv (api : APICls) (sig : SigType)
    (hconv : ∀ c2 : Collab,
      (lookupKV (api.naive_convert_to_signal_type [sig] c2 []) sig).getD [] = [])
    (c : Collab) (s : SimpleStore) (db : DBMState) (h : equivInv c s db) :
    (SimpleStore.get_for_signal_type api noRead s [c] sig).2 =
      DBMStore.get_for_signal_type api db [c] sig := by
  obtain ⟨hwf, hnames, hdata, hstag⟩ := h
  unfold SimpleStore.get_for_signal_type DBMStore.get_for_signal_type
  simp only [SimpleStore.getForSigAux, DBMStore.getForSigAux]
  cases hl : lookupKV s._state c with
  | none =>
    have hvd : db.getData c = [] := by
      rw [hdata]
      unfold viewData SimpleStore.simpleView
      rw [hl]
    rw [getState_of_lookup_none noRead s c hl, hvd]
    simp [noRead, hconv c]
  | some t =>
    rw [getState_of_lookup_some noRead s c t hl]
    cases hdel : t._delta with
    | none =>
      have hvd : db.getData c = [] := by
        rw [hdata]
        simp [viewData, SimpleStore.simpleView, hl, hdel]
      rw [hvd]
      simp [hdel, hconv c]
    | some dl =>
      have hvd : db.getData c = dl.updates := by
        rw [hdata]
        simp [viewData, SimpleStore.simpleView, hl, hdel]
      rw [hvd]
      simp only [hdel]
      by_cases hbs :
        (lookupKV (api.naive_convert_to_signal_type [sig] c dl.updates) sig).getD
          [] = []
      · rw [if_pos hbs, if_pos hbs]
      · rw [if_neg hbs, if_neg hbs]

/-- C5 amended: the two strategies satisfy the same observable contract
only under the conditions the persistent implementation hard-codes: when
the external merge function is per-key overwrite (Python dict update),
the converter maps an empty update map to an empty projection, and no
merged delta has an empty update map.  Under those conditions, for every
sequence of merge and flush calls on one collaboration from fresh
stores, the two strategies yield the same `get_for_signal_type`
projection, and after every flush the same `get_checkpoint` value. -/
theorem C5_strategies_equiv_overwrite
    (conv : List SigType → Collab → UpdateMap → Dict ConvMap)
    (hconv : ∀ (sig : SigType) (c2 : Collab),
      (lookupKV (conv [sig] c2 []) sig).getD [] = [])
    (c : Collab) (ops : List StoreOp)
    (hok : ∀ op ∈ ops, op.okMerge = true) (sig : SigType) :
    projSimpleRun (overwriteAPIWith conv) noRead c ops sig =
      .ok (projDBMRun (overwriteAPIWith conv) c ops sig) ∧
    (ops.getLast? = some StoreOp.flushOp →
      cpSimpleRun (overwriteAPIWith conv) noRead c ops =
        .ok (cpDBMRun c ops)) := by
  obtain ⟨s2, hrun, hinv⟩ :=
    equivRun (overwriteAPIWith conv) rfl c ops hok SimpleStore.init {}
      (equivInv_init c)
  constructor
  · unfold projSimpleRun projDBMRun
    rw [hrun]
    exact congrArg Except.ok
      (proj_eq_of_inv (overwriteAPIWith conv) sig (hconv sig) c s2 _ hinv)
  · intro hlast
    unfold cpSimpleRun cpDBMRun
    rw [hrun]
    refine congrArg Except.ok ?_
    rw [get_checkpoint_viewCp s2 c]
    have hcs := runDBM_last_flush c ops {} hlast
    show viewCp s2 c = DBMStore.get_checkpoint (runDBM c {} ops) c
    unfold DBMStore.get_checkpoint
    rw [hcs, hinv.2.2.2]

/-- C5 witness: the amended equivalence at one merge followed by one
flush, with the raw converter. -/
theorem C5_witness :
    projSimpleRun (overwriteAPIWith rawConv) noRead "c"
      [StoreOp.mergeOp { updates := [("a", 1)], checkpoint := some 1 },
        StoreOp.flushOp] "sig" =
      .ok (projDBMRun (overwriteAPIWith rawConv) "c"
        [StoreOp.mergeOp { updates := [("a", 1)], checkpoint := some 1 },
          StoreOp.flushOp] "sig") :=
  (C5_strategies_equiv_overwrite rawConv (fun sig c2 => by simp [rawConv]) "c"
    [StoreOp.mergeOp { updates := [("a", 1)], checkpoint := some 1 },
      StoreOp.flushOp] (by decide) "sig").1

end ThreatExchange
